import Mathlib

/-!
Verification of the widget work-queue consumer (retriever / storage / dispatch
loop) by a shallow embedding of its three modules:

* `retriever.py` — `S3Retriever.get_request`, `SQSRetriever.get_request`
* `storage.py`   — `S3Storage` and `DynamoDBStorage`
* `consumer.py`  — one iteration of `consume_requests` in each retriever mode

External collaborators (the S3/SQS/DynamoDB clients, `json.loads`/`json.dumps`)
are modelled by their observable effects: states are explicit, every call the
code issues against the stores is recorded in an operation trace, and the
outcome of parsing a payload is carried alongside the payload (`Option Req`,
`some` = parses, `none` = raises `JSONDecodeError`).  Serialization
(`json.dumps request`) is injective, so an object body written from a request
is represented by the request itself.
-/

/-- A Python exception, as far as this program distinguishes them:
`KeyError` from a missing dict field, `ValueError` raised explicitly by
`S3Storage.delete_widget`, and any I/O error raised by a boto3 client. -/
inductive PyErr where
  | keyError (field : String)
  | valueError (msg : String)
  | ioError (msg : String)
deriving DecidableEq, Repr

/-- One `{name, value}` entry of a request's `otherAttributes` list. -/
structure Attr where
  name : String
  value : String
deriving DecidableEq, Repr

/-- A widget request (a parsed JSON dict).  Optional fields are `none` when
the key is absent from the dict; `request['f']` on an absent field raises
`KeyError`, `request.get('f')` yields `None`. -/
structure Req where
  requestId : Option String := none
  type : Option String := none
  widgetId : Option String := none
  owner : Option String := none
  label : Option String := none
  description : Option String := none
  otherAttributes : Option (List Attr) := none
deriving DecidableEq, Repr

/-- Python dict membership `k in d` for a dict kept as an insertion-ordered
association list. -/
def dictContains (d : List (String × String)) (k : String) : Bool :=
  d.any (fun p => p.1 == k)

/-- Python dict assignment `d[k] = v`: overwrite in place if the key exists,
append otherwise. -/
def dictSet (d : List (String × String)) (k v : String) : List (String × String) :=
  if dictContains d k then d.map (fun p => if p.1 == k then (k, v) else p)
  else d ++ [(k, v)]

/-! ## `retriever.py` -/

/-- An object sitting in the inbox bucket: its key and the outcome of
`json.loads` on its body. -/
structure S3Object where
  key : String
  body : Option Req
deriving DecidableEq, Repr

/-- Calls `S3Retriever.get_request` issues against the S3 client. -/
inductive S3InOp where
  | listObjects
  | getObject (key : String)
  | deleteObject (key : String)
deriving DecidableEq, Repr

namespace S3Retriever

/-- `S3Retriever.get_request`.  The inbox bucket is the list of its objects in
listing order; the result is the returned request (or `None`), the bucket
contents afterwards, and the trace of S3 calls made.  A `json.loads` failure
is caught by the method's `except` clause, which returns `None` before the
`delete_object` line is reached. -/
def get_request (objs : List S3Object) :
    Option Req × List S3Object × List S3InOp :=
  match objs with
  | [] => (none, [], [.listObjects])
  | obj :: rest =>
    match obj.body with
    | some r => (some r, rest, [.listObjects, .getObject obj.key, .deleteObject obj.key])
    | none => (none, obj :: rest, [.listObjects, .getObject obj.key])

end S3Retriever

/-- A raw SQS message: the outcome of `json.loads` on its `Body`, and its
`ReceiptHandle`. -/
structure SQSMessage where
  body : Option Req
  receiptHandle : String
deriving DecidableEq, Repr

/-- Calls `SQSRetriever` issues against the SQS client. -/
inductive SQSOp where
  | receiveMessage
  | deleteMessage (handle : String)
deriving DecidableEq, Repr

/-- State of an `SQSRetriever` together with its queue: the local
`message_cache` deque, and the script of batches the queue will hand to the
successive `receive_message` calls (`[]` at the head models a response
without a `Messages` key; an exhausted script means every further receive
comes back empty). -/
structure SQSState where
  message_cache : List SQSMessage
  pending : List (List SQSMessage)
deriving DecidableEq, Repr

namespace SQSRetriever

/-- The tail of `SQSRetriever.get_request` from `if self.message_cache:` on:
pop the front message, return `(data, handle)` if its body parses, and on
`JSONDecodeError` delete the malformed message and return `None`. -/
def popFront (st : SQSState) (ops : List SQSOp) :
    Option (Req × String) × SQSState × List SQSOp :=
  match st.message_cache with
  | [] => (none, st, ops)
  | m :: rest =>
    match m.body with
    | some r => (some (r, m.receiptHandle), { st with message_cache := rest }, ops)
    | none => (none, { st with message_cache := rest },
        ops ++ [.deleteMessage m.receiptHandle])

/-- `SQSRetriever.get_request`: refill the cache with one `receive_message`
call when it is empty (returning `None` when the response has no messages),
then process the front of the cache. -/
def get_request (st : SQSState) :
    Option (Req × String) × SQSState × List SQSOp :=
  if st.message_cache.isEmpty then
    match st.pending with
    | [] => (none, st, [.receiveMessage])
    | batch :: rest =>
      if batch.isEmpty then (none, { st with pending := rest }, [.receiveMessage])
      else popFront { message_cache := st.message_cache ++ batch, pending := rest }
        [.receiveMessage]
  else popFront st []

/-- `n` successive `get_request` calls: the per-call (result, SQS-call trace)
pairs and the final state. -/
def runCalls : Nat → SQSState → List (Option (Req × String) × List SQSOp) × SQSState
  | 0, st => ([], st)
  | n + 1, st =>
    let out := get_request st
    let rest := runCalls n out.2.1
    ((out.1, out.2.2) :: rest.1, rest.2)

end SQSRetriever

/-! ## `storage.py` -/

/-- A write call issued against the backing store (S3 or DynamoDB).
`putObject`'s body is `json.dumps(request)`, represented by the request it
serializes. -/
inductive StoreCall where
  | putObject (bucket key : String) (body : Req)
  | deleteObject (bucket key : String)
  | putItem (item : List (String × String))
  | updateItem (key : String) (updateExpression : String)
      (names : Option (List (String × String))) (values : List (String × String))
  | deleteItem (key : String)
deriving DecidableEq, Repr

/-- Python `str.lower()` (the requests in play are ASCII). -/
def pyLower (s : String) : String := ⟨s.data.map Char.toLower⟩

/-- Python `str.replace(' ', '-')`. -/
def pyReplaceSpaceHyphen (s : String) : String :=
  ⟨s.data.map (fun c => if c == ' ' then '-' else c)⟩

namespace S3Storage

/-- `S3Storage._format_key`: `widgets/{owner.lower().replace(' ', '-')}/{widget_id}`. -/
def _format_key (owner widget_id : String) : String :=
  "widgets/" ++ pyReplaceSpaceHyphen (pyLower owner) ++ "/" ++ widget_id

/-- `S3Storage.create_widget`: read `widgetId` and `owner` (KeyError when
absent), then `put_object` the whole request under the derived key.  The
result is (outcome, write calls issued). -/
def create_widget (bucket : String) (r : Req) : Except PyErr Unit × List StoreCall :=
  match r.widgetId with
  | none => (.error (.keyError "widgetId"), [])
  | some wid =>
    match r.owner with
    | none => (.error (.keyError "owner"), [])
    | some ow => (.ok (), [.putObject bucket (_format_key ow wid) r])

/-- `S3Storage.update_widget`: logs `request['widgetId']` (KeyError when
absent) and then overwrites via `create_widget`. -/
def update_widget (bucket : String) (r : Req) : Except PyErr Unit × List StoreCall :=
  match r.widgetId with
  | none => (.error (.keyError "widgetId"), [])
  | some _ => create_widget bucket r

/-- `S3Storage.delete_widget`: reads `widgetId`, raises `ValueError` when
`owner` is absent, otherwise deletes the object at the derived key. -/
def delete_widget (bucket : String) (r : Req) : Except PyErr Unit × List StoreCall :=
  match r.widgetId with
  | none => (.error (.keyError "widgetId"), [])
  | some wid =>
    match r.owner with
    | none => (.error (.valueError "Delete request for S3 must include 'owner'"), [])
    | some ow => (.ok (), [.deleteObject bucket (_format_key ow wid)])

end S3Storage

namespace DynamoDBStorage

/-- `DynamoDBStorage.create_widget`: item = `{'id': widgetId, 'owner': owner}`,
then dict-assign `label` and `description` when present, then dict-assign each
`otherAttributes` entry in order. -/
def create_widget (r : Req) : Except PyErr Unit × List StoreCall :=
  match r.widgetId with
  | none => (.error (.keyError "widgetId"), [])
  | some wid =>
    match r.owner with
    | none => (.error (.keyError "owner"), [])
    | some ow =>
      let item := [("id", wid), ("owner", ow)]
      let item := match r.label with
        | some l => dictSet item "label" l
        | none => item
      let item := match r.description with
        | some d => dictSet item "description" d
        | none => item
      let item := match r.otherAttributes with
        | some attrs => attrs.foldl (fun d a => dictSet d a.name a.value) item
        | none => item
      (.ok (), [.putItem item])

/-- The three loop variables of `update_widget`: `update_expression`,
`expression_attribute_names`, `expression_attribute_values`. -/
structure ExprState where
  update_expression : String
  expression_attribute_names : List (String × String)
  expression_attribute_values : List (String × String)
deriving DecidableEq, Repr

/-- The `updatable_fields` list of `update_widget`. -/
def updatable_fields : List String := ["owner", "label", "description"]

/-- `field in request` / `request[field]` for the three updatable field names. -/
def fieldOf (r : Req) : String → Option String
  | "owner" => r.owner
  | "label" => r.label
  | "description" => r.description
  | _ => none

/-- One pass of `update_widget`'s `for field in updatable_fields` loop body. -/
def fixedStep (r : Req) (st : ExprState) (field : String) : ExprState :=
  match fieldOf r field with
  | none => st
  | some v =>
    { update_expression :=
        st.update_expression ++ ("#" ++ field) ++ " = " ++ (":" ++ field) ++ ", ",
      expression_attribute_names :=
        dictSet st.expression_attribute_names ("#" ++ field) field,
      expression_attribute_values :=
        dictSet st.expression_attribute_values (":" ++ field) v }

/-- One pass of `update_widget`'s `for i, attr in enumerate(...)` loop body. -/
def attrStep (st : ExprState) (ia : Nat × Attr) : ExprState :=
  { update_expression :=
      st.update_expression ++ ("#attr" ++ Nat.repr ia.1) ++ " = "
        ++ (":val" ++ Nat.repr ia.1) ++ ", ",
    expression_attribute_names :=
      dictSet st.expression_attribute_names ("#attr" ++ Nat.repr ia.1) ia.2.name,
    expression_attribute_values :=
      dictSet st.expression_attribute_values (":val" ++ Nat.repr ia.1) ia.2.value }

/-- Python `str.rstrip(', ')`: strip every trailing character that is a comma
or a space. -/
def rstripCommaSpace (s : String) : String :=
  ⟨(s.data.reverse.dropWhile (fun c => c == ',' || c == ' ')).reverse⟩

/-- `DynamoDBStorage.update_widget`: build the update expression and the
name/value maps over the fields present, skip the write when the value map is
empty, otherwise `update_item` keyed by `id = widgetId` (passing
`ExpressionAttributeNames` only when that map is nonempty, as the code's final
`if` does). -/
def update_widget (r : Req) : Except PyErr Unit × List StoreCall :=
  match r.widgetId with
  | none => (.error (.keyError "widgetId"), [])
  | some wid =>
    let st0 : ExprState := ⟨"SET ", [], []⟩
    let st1 := updatable_fields.foldl (fixedStep r) st0
    let st2 := match r.otherAttributes with
      | some attrs => attrs.enum.foldl attrStep st1
      | none => st1
    if st2.expression_attribute_values.isEmpty then (.ok (), [])
    else
      let ue := rstripCommaSpace st2.update_expression
      if st2.expression_attribute_names.isEmpty then
        (.ok (), [.updateItem wid ue none st2.expression_attribute_values])
      else
        (.ok (), [.updateItem wid ue (some st2.expression_attribute_names)
          st2.expression_attribute_values])

/-- `DynamoDBStorage.delete_widget`: `delete_item` keyed by `id = widgetId`. -/
def delete_widget (r : Req) : Except PyErr Unit × List StoreCall :=
  match r.widgetId with
  | none => (.error (.keyError "widgetId"), [])
  | some wid => (.ok (), [.deleteItem wid])

end DynamoDBStorage

/-! ## `consumer.py` -/

/-- The three Sink operations the dispatcher can route to. -/
inductive SinkOp where
  | create
  | update
  | delete
deriving DecidableEq, Repr

/-- The logging level of a `logging.*` call in `consume_requests`. -/
inductive LogLevel where
  | info
  | warning
  | error
deriving DecidableEq, Repr

/-- One observable action of a dispatcher iteration: a Sink call, a logging
call, the `request_retriever.delete_message(receipt_handle)` acknowledgment,
or the 100 ms sleep of the poll-style branch. -/
inductive DispatchEvent where
  | sinkCall (op : SinkOp) (r : Req)
  | log (lvl : LogLevel)
  | deleteMessage (handle : String)
  | sleep
deriving DecidableEq, Repr

/-- Result of one loop iteration: the events in program order, and the
exception escaping the iteration, if any (such an exception is not caught
inside the `while` loop, so it terminates the process). -/
structure IterResult where
  events : List DispatchEvent
  uncaught : Option PyErr
deriving DecidableEq, Repr

/-- The behavior of the configured storage handler: what each
`create_widget`/`update_widget`/`delete_widget` call does on a given request
(returns, or raises). The dispatcher is parametric in it. -/
def SinkBehavior : Type := SinkOp → Req → Except PyErr Unit

/-- One iteration of the `retriever_mode == "sqs"` branch of
`consume_requests`, given what `get_request()` returned.  The whole `if`/`elif`
chain and the trailing `delete_message` sit in one `try` whose `except` logs
the error; a request whose `type` matches no branch falls through to the
`delete_message` line. -/
def sqsIteration (σ : SinkBehavior) (msg : Option (Req × String)) : IterResult :=
  match msg with
  | none => ⟨[], none⟩
  | some (r, handle) =>
    if r.type = some "create" then
      match σ .create r with
      | .ok _ => ⟨[.sinkCall .create r, .log .info, .deleteMessage handle], none⟩
      | .error _ => ⟨[.sinkCall .create r, .log .error], none⟩
    else if r.type = some "delete" then
      match σ .delete r with
      | .ok _ => ⟨[.sinkCall .delete r, .log .info, .deleteMessage handle], none⟩
      | .error _ => ⟨[.sinkCall .delete r, .log .error], none⟩
    else if r.type = some "update" then
      match σ .update r with
      | .ok _ => ⟨[.sinkCall .update r, .log .info, .deleteMessage handle], none⟩
      | .error _ => ⟨[.sinkCall .update r, .log .error], none⟩
    else ⟨[.deleteMessage handle], none⟩

/-- One iteration of the `retriever_mode == "s3"` branch of
`consume_requests`, given what `get_request()` returned.  Only the `create`
branch wraps its Sink call in a `try`/`except`; an exception from
`delete_widget` or `update_widget` propagates out of the `while` loop
(`uncaught`).  A request whose `type` matches no branch does nothing. -/
def s3Iteration (σ : SinkBehavior) (req : Option Req) : IterResult :=
  match req with
  | none => ⟨[.sleep], none⟩
  | some r =>
    if r.type = some "create" then
      match σ .create r with
      | .ok _ => ⟨[.sinkCall .create r, .log .info], none⟩
      | .error _ => ⟨[.sinkCall .create r, .log .error], none⟩
    else if r.type = some "delete" then
      match σ .delete r with
      | .ok _ => ⟨[.sinkCall .delete r, .log .info], none⟩
      | .error e => ⟨[.sinkCall .delete r], some e⟩
    else if r.type = some "update" then
      match σ .update r with
      | .ok _ => ⟨[.sinkCall .update r, .log .info], none⟩
      | .error e => ⟨[.sinkCall .update r], some e⟩
    else ⟨[], none⟩

/-! ## Facts about `Nat.repr` (Python's `str(i)` in the f-string placeholders)

`update_widget` forms the placeholders `#attr{i}` / `:val{i}` with Python's
decimal rendering of `i`, embedded as `Nat.repr`.  The placeholder maps built
by successive dict assignments are plain appends only because these
placeholders never collide, which needs `Nat.repr` to be injective; the final
`rstrip(', ')` removes exactly the trailing separator only because a rendered
number never ends in a comma or a space.  Both facts are proved here from the
kernel definition of `Nat.toDigits`. -/

theorem toDigitsCore_shift (b fuel : Nat) :
    ∀ (n : Nat) (ds : List Char),
    Nat.toDigitsCore b fuel n ds = Nat.toDigitsCore b fuel n [] ++ ds := by
  induction fuel with
  | zero => intro n ds; simp [Nat.toDigitsCore]
  | succ fuel ih =>
    intro n ds
    simp only [Nat.toDigitsCore]
    by_cases h : n / b = 0
    · simp [h]
    · simp only [h, if_false]
      rw [ih (n / b) (Nat.digitChar (n % b) :: ds), ih (n / b) [Nat.digitChar (n % b)]]
      simp

theorem toDigitsCore_fuel (n : Nat) : ∀ f g : Nat, n < f → n < g →
    Nat.toDigitsCore 10 f n [] = Nat.toDigitsCore 10 g n [] := by
  induction n using Nat.strong_induction_on with
  | _ n ih =>
    intro f g hf hg
    match f, g with
    | f + 1, g + 1 =>
      simp only [Nat.toDigitsCore]
      by_cases h : n / 10 = 0
      · simp [h]
      · simp only [h, if_false]
        have hn : 0 < n := by
          rcases Nat.eq_zero_or_pos n with h0 | h0
          · exact absurd (by simp [h0]) h
          · exact h0
        have hlt : n / 10 < n := Nat.div_lt_self hn (by norm_num)
        rw [toDigitsCore_shift, toDigitsCore_shift 10 g]
        congr 1
        exact ih (n / 10) hlt f g (by omega) (by omega)

theorem toDigits_ten_eq (n : Nat) :
    Nat.toDigits 10 n =
      if n < 10 then [Nat.digitChar n]
      else Nat.toDigits 10 (n / 10) ++ [Nat.digitChar (n % 10)] := by
  unfold Nat.toDigits
  by_cases h : n < 10
  · have hdiv : n / 10 = 0 := (Nat.div_eq_zero_iff (by norm_num)).mpr h
    have hmod : n % 10 = n := Nat.mod_eq_of_lt h
    simp [Nat.toDigitsCore, hdiv, hmod, h]
  · have hdiv : ¬ n / 10 = 0 := by
      intro h0
      exact h ((Nat.div_eq_zero_iff (by norm_num)).mp h0)
    have hn : 0 < n := by omega
    have hlt : n / 10 < n := Nat.div_lt_self hn (by norm_num)
    simp only [Nat.toDigitsCore, hdiv, if_false, if_neg h]
    rw [toDigitsCore_shift]
    congr 1
    exact toDigitsCore_fuel (n / 10) n (n / 10 + 1) (by omega) (by omega)

/-- The numeric value a decimal digit character stands for. -/
def digitVal (c : Char) : Nat := c.toNat - 48

theorem digitVal_digitChar : ∀ m, m < 10 → digitVal (Nat.digitChar m) = m := by decide

/-- Value of a decimal digit string. -/
def decVal (l : List Char) : Nat := l.foldl (fun a c => 10 * a + digitVal c) 0

theorem decVal_concat (l : List Char) (c : Char) :
    decVal (l ++ [c]) = 10 * decVal l + digitVal c := by
  simp [decVal, List.foldl_append]

theorem decVal_toDigits (n : Nat) : decVal (Nat.toDigits 10 n) = n := by
  induction n using Nat.strong_induction_on with
  | _ n ih =>
    rw [toDigits_ten_eq]
    by_cases h : n < 10
    · simp [h, decVal, digitVal_digitChar n h]
    · have hn : 0 < n := by omega
      have hlt : n / 10 < n := Nat.div_lt_self hn (by norm_num)
      rw [if_neg h, decVal_concat, ih (n / 10) hlt,
        digitVal_digitChar (n % 10) (Nat.mod_lt n (by norm_num))]
      omega

theorem natRepr_injective : Function.Injective Nat.repr := by
  intro m n hmn
  have hd : Nat.toDigits 10 m = Nat.toDigits 10 n := congrArg String.data hmn
  calc m = decVal (Nat.toDigits 10 m) := (decVal_toDigits m).symm
    _ = decVal (Nat.toDigits 10 n) := by rw [hd]
    _ = n := decVal_toDigits n

theorem natRepr_data (n : Nat) : (Nat.repr n).data = Nat.toDigits 10 n := rfl

/-- `str(i)` always ends in a decimal digit character. -/
theorem toDigits_ends_digit (n : Nat) :
    ∃ l m, m < 10 ∧ Nat.toDigits 10 n = l ++ [Nat.digitChar m] := by
  rw [toDigits_ten_eq]
  by_cases h : n < 10
  · exact ⟨[], n, h, by simp [h]⟩
  · exact ⟨Nat.toDigits 10 (n / 10), n % 10, Nat.mod_lt n (by norm_num), by simp [h]⟩

/-! ## Dictionary and string lemmas -/

theorem dictContains_append (d e : List (String × String)) (k : String) :
    dictContains (d ++ e) k = (dictContains d k || dictContains e k) := by
  simp [dictContains, List.any_append]

theorem dictContains_single (p : String × String) (k : String) :
    dictContains [p] k = (p.1 == k) := by
  simp [dictContains]

theorem dictSet_of_not_contains {d : List (String × String)} {k : String}
    (h : dictContains d k = false) (v : String) : dictSet d k v = d ++ [(k, v)] := by
  simp [dictSet, h]

/-- A key stays absent under a dict assignment to a different key. -/
theorem dictContains_dictSet {d : List (String × String)} {k k' : String}
    (hd : dictContains d k = false) (hk : (k' == k) = false) (v : String) :
    dictContains (dictSet d k' v) k = false := by
  unfold dictSet
  by_cases h : dictContains d k'
  · rw [if_pos h]
    unfold dictContains at hd ⊢
    rw [List.any_map]
    have hfun : ((fun p : String × String => p.1 == k)
          ∘ (fun p : String × String => if p.1 == k' then (k', v) else p))
        = fun p : String × String => p.1 == k := by
      funext p
      by_cases hp : p.1 == k'
      · have hpk : p.1 = k' := eq_of_beq hp
        simp [Function.comp, hp, hpk]
      · simp [Function.comp, hp]
    rw [hfun]
    exact hd
  · rw [if_neg h, dictContains_append, hd, dictContains_single, hk]
    rfl

/-- Two strings differing at their second character are different. -/
theorem ne_of_second_char {s t : String} {a b c : Char} {l m : List Char}
    (hs : s.data = a :: b :: l) (ht : t.data = a :: c :: m) (h : b ≠ c) : s ≠ t := by
  intro he
  rw [he, ht] at hs
  injection hs with h1 h2
  injection h2 with h3 h4
  exact h h3.symm

theorem data_attrName (s : String) :
    ("#attr" ++ s).data = '#' :: 'a' :: ('t' :: 't' :: 'r' :: s.data) := by
  rw [String.data_append]; rfl

theorem data_attrValue (s : String) :
    (":val" ++ s).data = ':' :: 'v' :: ('a' :: 'l' :: s.data) := by
  rw [String.data_append]; rfl

/-- None of the fixed-field name placeholders collides with an
`otherAttributes` name placeholder. -/
theorem fixedName_ne_attrName {f : String} (hf : f ∈ DynamoDBStorage.updatable_fields)
    (s : String) : (("#" ++ f : String) == "#attr" ++ s) = false := by
  apply beq_eq_false_iff_ne.mpr
  fin_cases hf
  · exact ne_of_second_char (s := "#" ++ "owner") rfl (data_attrName s) (by decide)
  · exact ne_of_second_char (s := "#" ++ "label") rfl (data_attrName s) (by decide)
  · exact ne_of_second_char (s := "#" ++ "description") rfl (data_attrName s) (by decide)

/-- None of the fixed-field value placeholders collides with an
`otherAttributes` value placeholder. -/
theorem fixedValue_ne_attrValue {f : String} (hf : f ∈ DynamoDBStorage.updatable_fields)
    (s : String) : ((":" ++ f : String) == ":val" ++ s) = false := by
  apply beq_eq_false_iff_ne.mpr
  fin_cases hf
  · exact ne_of_second_char (s := ":" ++ "owner") rfl (data_attrValue s) (by decide)
  · exact ne_of_second_char (s := ":" ++ "label") rfl (data_attrValue s) (by decide)
  · exact ne_of_second_char (s := ":" ++ "description") rfl (data_attrValue s) (by decide)

/-- Placeholders formed from different indices are different. -/
theorem prefixRepr_ne {n j : Nat} (h : n ≠ j) (p : String) :
    ((p ++ Nat.repr n : String) == p ++ Nat.repr j) = false := by
  apply beq_eq_false_iff_ne.mpr
  intro he
  apply h
  apply natRepr_injective
  apply String.ext
  have := congrArg String.data he
  rw [String.data_append, String.data_append] at this
  exact List.append_cancel_left this

/-! ## Spec-side description of the table sink's update expression

These definitions follow the spec's words ("an update expression covering
exactly the fields present in the request from {owner, label, description}
plus every otherAttributes entry, placeholder scheme `#<fieldname>` /
`:<fieldname>` for the fixed fields, `#attr<i>` / `:val<i>` for the i-th
entry") and are compared against what `DynamoDBStorage.update_widget`
constructs. -/

namespace DynamoDBStorage

/-- The fixed updatable fields present in the request, with their values, in
`updatable_fields` order. -/
def presentFixed (r : Req) : List (String × String) :=
  updatable_fields.filterMap (fun f => (fieldOf r f).map (fun v => (f, v)))

/-- The request's `otherAttributes`, an absent key meaning no entries. -/
def attrsOf (r : Req) : List Attr := r.otherAttributes.getD []

/-- The `SET` clause for a fixed field. -/
def fixedClause (f : String) : String := ("#" ++ f) ++ " = " ++ (":" ++ f)

/-- The `SET` clause for the `i`-th `otherAttributes` entry. -/
def attrClause (i : Nat) : String :=
  ("#attr" ++ Nat.repr i) ++ " = " ++ (":val" ++ Nat.repr i)

/-- All clauses the spec requires: one per present fixed field, then one per
`otherAttributes` entry. -/
def specClauses (r : Req) : List String :=
  (presentFixed r).map (fun p => fixedClause p.1)
    ++ (attrsOf r).enum.map (fun ia => attrClause ia.1)

/-- The `ExpressionAttributeNames` map the spec requires. -/
def specNames (r : Req) : List (String × String) :=
  (presentFixed r).map (fun p => ("#" ++ p.1, p.1))
    ++ (attrsOf r).enum.map (fun ia => ("#attr" ++ Nat.repr ia.1, ia.2.name))

/-- The `ExpressionAttributeValues` map the spec requires. -/
def specValues (r : Req) : List (String × String) :=
  (presentFixed r).map (fun p => (":" ++ p.1, p.2))
    ++ (attrsOf r).enum.map (fun ia => (":val" ++ Nat.repr ia.1, ia.2.value))

/-- Clauses each followed by the `", "` separator, as the loops concatenate
them. -/
def glueClauses : List String → String
  | [] => ""
  | c :: cs => c ++ ", " ++ glueClauses cs

/-- Clauses joined by the `", "` separator, with no trailing separator: the
shape of the final update expression. -/
def joinClauses : List String → String
  | [] => ""
  | [c] => c
  | c :: cs => c ++ ", " ++ joinClauses cs

theorem glueClauses_append (xs ys : List String) :
    glueClauses (xs ++ ys) = glueClauses xs ++ glueClauses ys := by
  induction xs with
  | nil =>
    show glueClauses ys = "" ++ glueClauses ys
    rw [String.empty_append]
  | cons c cs ih =>
    show c ++ ", " ++ glueClauses (cs ++ ys) = c ++ ", " ++ glueClauses cs ++ glueClauses ys
    rw [ih]
    simp [String.append_assoc]

theorem glueClauses_eq_join {cs : List String} (h : cs ≠ []) :
    glueClauses cs = joinClauses cs ++ ", " := by
  induction cs with
  | nil => exact absurd rfl h
  | cons c cs ih =>
    cases cs with
    | nil =>
      show c ++ ", " ++ "" = c ++ ", "
      rw [String.append_empty]
    | cons c' cs' =>
      show c ++ ", " ++ glueClauses (c' :: cs') = c ++ ", " ++ joinClauses (c' :: cs') ++ ", "
      rw [ih (by simp)]
      simp [String.append_assoc]

/-- The string ends in a character `rstrip(', ')` does not strip. -/
def lastCharOk (s : String) : Prop :=
  ∃ l c, s.data = l ++ [c] ∧ (c == ',' || c == ' ') = false

theorem rstrip_append_sep (s : String) :
    rstripCommaSpace (s ++ ", ") = rstripCommaSpace s := by
  unfold rstripCommaSpace
  rw [String.data_append]
  have hsep : (", " : String).data = [',', ' '] := rfl
  rw [hsep]
  have : (s.data ++ [',', ' ']).reverse = ' ' :: ',' :: s.data.reverse := by
    simp
  rw [this]
  rfl

theorem rstrip_of_lastCharOk {s : String} (h : lastCharOk s) :
    rstripCommaSpace s = s := by
  obtain ⟨l, c, hdata, hc⟩ := h
  apply String.ext
  show ((String.data s).reverse.dropWhile (fun c => c == ',' || c == ' ')).reverse
      = String.data s
  rw [hdata]
  have : (l ++ [c]).reverse = c :: l.reverse := by simp
  rw [this, List.dropWhile_cons, hc]
  simp

theorem lastCharOk_append_right {s t : String} (h : lastCharOk t) :
    lastCharOk (s ++ t) := by
  obtain ⟨l, c, hdata, hc⟩ := h
  exact ⟨s.data ++ l, c, by rw [String.data_append, hdata, List.append_assoc], hc⟩

theorem digitChar_not_sep : ∀ m, m < 10 →
    (Nat.digitChar m == ',' || Nat.digitChar m == ' ') = false := by decide

theorem lastCharOk_attrClause (i : Nat) : lastCharOk (attrClause i) := by
  unfold attrClause
  apply lastCharOk_append_right
  obtain ⟨l, m, hm, hrepr⟩ := toDigits_ends_digit i
  refine ⟨':' :: 'v' :: 'a' :: 'l' :: l, Nat.digitChar m, ?_, ?_⟩
  · rw [data_attrValue, natRepr_data, hrepr]
    rfl
  · exact digitChar_not_sep m hm

theorem lastCharOk_fixedClause {f : String} (hf : f ∈ updatable_fields) :
    lastCharOk (fixedClause f) := by
  fin_cases hf
  · exact ⟨"#owner = :owne".data, 'r', by decide, by decide⟩
  · exact ⟨"#label = :labe".data, 'l', by decide, by decide⟩
  · exact ⟨"#description = :descriptio".data, 'n', by decide, by decide⟩

theorem lastCharOk_join {s : String} {cs : List String} (hcs : cs ≠ [])
    (h : ∀ c ∈ cs, lastCharOk c) : lastCharOk (s ++ joinClauses cs) := by
  induction cs generalizing s with
  | nil => exact absurd rfl hcs
  | cons c cs' ih =>
    cases cs' with
    | nil =>
      show lastCharOk (s ++ c)
      exact lastCharOk_append_right (h c (by simp))
    | cons c' cs'' =>
      show lastCharOk (s ++ (c ++ ", " ++ joinClauses (c' :: cs'')))
      rw [← String.append_assoc, ← String.append_assoc]
      exact ih (by simp) (fun x hx => h x (List.mem_cons_of_mem c hx))

end DynamoDBStorage

namespace DynamoDBStorage

/-- The `for field in updatable_fields` loop builds exactly the clauses and
maps for the fields present (case analysis over which of the three are
present; all placeholder keys are distinct, so each dict assignment
appends). -/
theorem fixedFold_eq (r : Req) :
    updatable_fields.foldl (fixedStep r) ⟨"SET ", [], []⟩ =
      ⟨"SET " ++ glueClauses ((presentFixed r).map (fun p => fixedClause p.1)),
       (presentFixed r).map (fun p => ("#" ++ p.1, p.1)),
       (presentFixed r).map (fun p => (":" ++ p.1, p.2))⟩ := by
  rcases r with ⟨rid, ty, wid, ow, lb, ds, oa⟩
  cases ow <;> cases lb <;> cases ds <;>
    simp [updatable_fields, presentFixed, fieldOf, fixedStep, fixedClause, glueClauses,
      dictSet, dictContains]

/-- The `enumerate(otherAttributes)` loop appends one clause and one
name/value pair per entry: the index-built placeholders are fresh at every
step. -/
theorem attrFold_eq (attrs : List Attr) :
    ∀ (n : Nat) (st : ExprState),
    (∀ j, n ≤ j →
      dictContains st.expression_attribute_names ("#attr" ++ Nat.repr j) = false) →
    (∀ j, n ≤ j →
      dictContains st.expression_attribute_values (":val" ++ Nat.repr j) = false) →
    (List.enumFrom n attrs).foldl attrStep st =
      ⟨st.update_expression
          ++ glueClauses ((List.enumFrom n attrs).map (fun ia => attrClause ia.1)),
       st.expression_attribute_names
          ++ (List.enumFrom n attrs).map
            (fun ia => ("#attr" ++ Nat.repr ia.1, ia.2.name)),
       st.expression_attribute_values
          ++ (List.enumFrom n attrs).map
            (fun ia => (":val" ++ Nat.repr ia.1, ia.2.value))⟩ := by
  induction attrs with
  | nil =>
    intro n st h1 h2
    simp [List.enumFrom, glueClauses]
  | cons a as ih =>
    intro n st h1 h2
    rw [show List.enumFrom n (a :: as) = (n, a) :: List.enumFrom (n + 1) as from rfl,
      List.foldl_cons]
    have hstep : attrStep st (n, a) =
        ⟨st.update_expression
            ++ (("#attr" ++ Nat.repr n) ++ " = " ++ (":val" ++ Nat.repr n) ++ ", "),
         st.expression_attribute_names ++ [("#attr" ++ Nat.repr n, a.name)],
         st.expression_attribute_values ++ [(":val" ++ Nat.repr n, a.value)]⟩ := by
      unfold attrStep
      rw [dictSet_of_not_contains (h1 n (le_refl n)),
        dictSet_of_not_contains (h2 n (le_refl n))]
      simp [String.append_assoc]
    rw [hstep]
    have h1' : ∀ j, n + 1 ≤ j →
        dictContains (st.expression_attribute_names
          ++ [("#attr" ++ Nat.repr n, a.name)]) ("#attr" ++ Nat.repr j) = false := by
      intro j hj
      rw [dictContains_append, h1 j (by omega), dictContains_single]
      have hne : (("#attr" ++ Nat.repr n : String) == "#attr" ++ Nat.repr j) = false :=
        prefixRepr_ne (by omega) "#attr"
      simp [hne]
    have h2' : ∀ j, n + 1 ≤ j →
        dictContains (st.expression_attribute_values
          ++ [(":val" ++ Nat.repr n, a.value)]) (":val" ++ Nat.repr j) = false := by
      intro j hj
      rw [dictContains_append, h2 j (by omega), dictContains_single]
      have hne : ((":val" ++ Nat.repr n : String) == ":val" ++ Nat.repr j) = false :=
        prefixRepr_ne (by omega) ":val"
      simp [hne]
    rw [ih (n + 1) _ h1' h2']
    simp [glueClauses, attrClause, String.append_assoc]

end DynamoDBStorage

namespace DynamoDBStorage

theorem presentFixed_mem_fst {r : Req} {p : String × String}
    (hp : p ∈ presentFixed r) : p.1 ∈ updatable_fields := by
  unfold presentFixed at hp
  rw [List.mem_filterMap] at hp
  obtain ⟨f, hf, hfp⟩ := hp
  cases hof : fieldOf r f with
  | none => rw [hof] at hfp; simp at hfp
  | some v =>
    rw [hof] at hfp
    have hfv : (f, v) = p := by simpa using hfp
    rw [← hfv]
    simpa using hf

theorem specNames_eq_nil_iff (r : Req) : specNames r = [] ↔ specValues r = [] := by
  unfold specNames specValues
  simp [List.append_eq_nil, List.map_eq_nil_iff]

theorem specClauses_eq_nil_iff (r : Req) : specClauses r = [] ↔ specValues r = [] := by
  unfold specClauses specValues
  simp [List.append_eq_nil, List.map_eq_nil_iff]

theorem specClauses_lastCharOk (r : Req) : ∀ c ∈ specClauses r, lastCharOk c := by
  intro c hc
  unfold specClauses at hc
  rw [List.mem_append] at hc
  rcases hc with hc | hc
  · rw [List.mem_map] at hc
    obtain ⟨p, hp, rfl⟩ := hc
    exact lastCharOk_fixedClause (presentFixed_mem_fst hp)
  · rw [List.mem_map] at hc
    obtain ⟨ia, _, rfl⟩ := hc
    exact lastCharOk_attrClause ia.1

theorem fixedNames_fresh (r : Req) : ∀ j : Nat,
    dictContains ((presentFixed r).map (fun p => ("#" ++ p.1, p.1)))
      ("#attr" ++ Nat.repr j) = false := by
  intro j
  unfold dictContains
  rw [List.any_eq_false]
  intro x hx
  rw [List.mem_map] at hx
  obtain ⟨p, hp, rfl⟩ := hx
  simp [fixedName_ne_attrName (presentFixed_mem_fst hp) (Nat.repr j)]

theorem fixedValues_fresh (r : Req) : ∀ j : Nat,
    dictContains ((presentFixed r).map (fun p => (":" ++ p.1, p.2)))
      (":val" ++ Nat.repr j) = false := by
  intro j
  unfold dictContains
  rw [List.any_eq_false]
  intro x hx
  rw [List.mem_map] at hx
  obtain ⟨p, hp, rfl⟩ := hx
  simp [fixedValue_ne_attrValue (presentFixed_mem_fst hp) (Nat.repr j)]

/-- What `update_widget` does on a request whose `widgetId` is present: skip
the write when nothing is to be updated, otherwise one `update_item` keyed by
`id = widgetId` whose expression, name map and value map are exactly the
spec-described ones.  (The code's no-`ExpressionAttributeNames` `update_item`
branch is dead: whenever the value map is nonempty, so is the name map.) -/
theorem update_widget_eq (r : Req) (wid : String) (hw : r.widgetId = some wid) :
    update_widget r =
      if specValues r = [] then (.ok (), [])
      else (.ok (), [.updateItem wid ("SET " ++ joinClauses (specClauses r))
        (some (specNames r)) (specValues r)]) := by
  have htail : ∀ st2 : ExprState,
      st2 = ⟨"SET " ++ glueClauses (specClauses r), specNames r, specValues r⟩ →
      (if st2.expression_attribute_values.isEmpty then
        ((Except.ok (), []) : Except PyErr Unit × List StoreCall)
       else if st2.expression_attribute_names.isEmpty then
        (.ok (), [.updateItem wid (rstripCommaSpace st2.update_expression) none
          st2.expression_attribute_values])
       else
        (.ok (), [.updateItem wid (rstripCommaSpace st2.update_expression)
          (some st2.expression_attribute_names) st2.expression_attribute_values])) =
      if specValues r = [] then (.ok (), [])
      else (.ok (), [.updateItem wid ("SET " ++ joinClauses (specClauses r))
        (some (specNames r)) (specValues r)]) := by
    rintro st2 rfl
    by_cases hv : specValues r = []
    · simp [hv]
    · have hnames : specNames r ≠ [] := fun h => hv ((specNames_eq_nil_iff r).mp h)
      have hclauses : specClauses r ≠ [] := fun h => hv ((specClauses_eq_nil_iff r).mp h)
      have hisv : (specValues r).isEmpty = false := by
        cases h : (specValues r).isEmpty
        · rfl
        · exact absurd (List.isEmpty_iff.mp h) hv
      have hisn : (specNames r).isEmpty = false := by
        cases h : (specNames r).isEmpty
        · rfl
        · exact absurd (List.isEmpty_iff.mp h) hnames
      have hexpr : rstripCommaSpace ("SET " ++ glueClauses (specClauses r))
          = "SET " ++ joinClauses (specClauses r) := by
        rw [glueClauses_eq_join hclauses, ← String.append_assoc, rstrip_append_sep]
        exact rstrip_of_lastCharOk (lastCharOk_join hclauses (specClauses_lastCharOk r))
      simp only [hisv, hisn, if_neg hv, Bool.false_eq_true, if_false, hexpr]
  simp only [update_widget, hw]
  cases hoa : r.otherAttributes with
  | none =>
    refine htail _ ?_
    rw [fixedFold_eq r]
    unfold specClauses specNames specValues attrsOf
    rw [hoa]
    simp [glueClauses_append]
  | some attrs =>
    refine htail _ ?_
    show attrs.enum.foldl attrStep
        (updatable_fields.foldl (fixedStep r) ⟨"SET ", [], []⟩) = _
    rw [fixedFold_eq r, show attrs.enum = List.enumFrom 0 attrs from rfl]
    rw [attrFold_eq attrs 0 _ (fun j _ => fixedNames_fresh r j)
      (fun j _ => fixedValues_fresh r j)]
    unfold specClauses specNames specValues attrsOf
    rw [hoa]
    simp [glueClauses_append, String.append_assoc, List.enum]

end DynamoDBStorage

/-! ## Claim theorems -/

/-- The `type` string the dispatcher's `elif` chain matches for each Sink
operation. -/
def opString : SinkOp → String
  | .create => "create"
  | .delete => "delete"
  | .update => "update"

/-- No exception escapes an iteration of the queue-style branch: the whole
`if`/`elif` chain and the acknowledgment sit inside one `try`. -/
theorem sqs_uncaught_none (σ : SinkBehavior) (msg : Option (Req × String)) :
    (sqsIteration σ msg).uncaught = none := by
  rcases msg with _ | ⟨r, handle⟩
  · rfl
  · simp only [sqsIteration]
    by_cases h1 : r.type = some "create"
    · rw [if_pos h1]; cases σ .create r <;> rfl
    · rw [if_neg h1]
      by_cases h2 : r.type = some "delete"
      · rw [if_pos h2]; cases σ .delete r <;> rfl
      · rw [if_neg h2]
        by_cases h3 : r.type = some "update"
        · rw [if_pos h3]; cases σ .update r <;> rfl
        · rw [if_neg h3]

/-- C1, counterexample.  A queue-style message whose request has an
unrecognized `type` falls through the `elif` chain to the unconditional
`delete_message` line: the message IS acknowledged, and no warning (indeed no
log line at all) is emitted — the iteration's only event is the
acknowledgment. -/
theorem C1_counterexample :
    sqsIteration (fun _ _ => .ok ())
      (some ({ requestId := some "r-77", type := some "mystery" }, "h0"))
      = ⟨[.deleteMessage "h0"], none⟩ := by decide

/-- C1, amended: for every fetched queue-style message whose request has an
unrecognized `type`, the Dispatcher performs no Sink call and logs nothing
(in particular no warning), and it DOES acknowledge the message:
`delete_message` is called on its receipt handle. -/
theorem C1_amended (σ : SinkBehavior) (r : Req) (handle : String)
    (h1 : r.type ≠ some "create") (h2 : r.type ≠ some "delete")
    (h3 : r.type ≠ some "update") :
    sqsIteration σ (some (r, handle)) = ⟨[.deleteMessage handle], none⟩ := by
  simp only [sqsIteration]
  rw [if_neg h1, if_neg h2, if_neg h3]

/-- C1, witness for the amended theorem at a concrete unrecognized type. -/
theorem C1_witness :
    ((({ type := some "exotic" } : Req).type ≠ some "create")
      ∧ (({ type := some "exotic" } : Req).type ≠ some "delete")
      ∧ (({ type := some "exotic" } : Req).type ≠ some "update"))
    ∧ sqsIteration (fun _ _ => .error (.ioError "x"))
        (some ({ type := some "exotic" }, "h1")) = ⟨[.deleteMessage "h1"], none⟩ :=
  ⟨⟨by decide, by decide, by decide⟩,
    C1_amended (fun _ _ => .error (.ioError "x")) { type := some "exotic" } "h1"
      (by decide) (by decide) (by decide)⟩

/-- C2, counterexample.  In the poll-style (S3 retriever) mode a `delete`
request whose Sink call raises is NOT caught: the exception escapes the loop
(`uncaught`), no error is logged, and the process dies — contradicting "the
error is caught and logged and the loop continues ... In particular ... for
update and delete requests in the poll-style mode". -/
theorem C2_counterexample :
    s3Iteration (fun _ _ => .error (.ioError "boom")) (some { type := some "delete" })
      = ⟨[.sinkCall .delete { type := some "delete" }], some (.ioError "boom")⟩ := by
  decide

/-- C2, amended: per-request Sink errors are isolated in the queue-style mode
(for every request and every Sink outcome) and, in the poll-style mode, for
`create` requests only (caught and logged); a failing Sink call for a
poll-style `delete` or `update` request propagates out of the loop and
terminates the process. -/
theorem C2_amended :
    (∀ (σ : SinkBehavior) (msg : Option (Req × String)),
      (sqsIteration σ msg).uncaught = none)
    ∧ (∀ (σ : SinkBehavior) (r : Req) (e : PyErr), r.type = some "create" →
        σ .create r = .error e →
        s3Iteration σ (some r) = ⟨[.sinkCall .create r, .log .error], none⟩)
    ∧ (∀ (σ : SinkBehavior) (r : Req) (e : PyErr), r.type = some "delete" →
        σ .delete r = .error e →
        s3Iteration σ (some r) = ⟨[.sinkCall .delete r], some e⟩)
    ∧ (∀ (σ : SinkBehavior) (r : Req) (e : PyErr), r.type = some "update" →
        σ .update r = .error e →
        s3Iteration σ (some r) = ⟨[.sinkCall .update r], some e⟩) := by
  refine ⟨sqs_uncaught_none, ?_, ?_, ?_⟩
  · intro σ r e hty herr
    simp only [s3Iteration]
    rw [if_pos hty, herr]
  · intro σ r e hty herr
    have hne1 : ¬ r.type = some "create" := by rw [hty]; decide
    simp only [s3Iteration]
    rw [if_neg hne1, if_pos hty, herr]
  · intro σ r e hty herr
    have hne1 : ¬ r.type = some "create" := by rw [hty]; decide
    have hne2 : ¬ r.type = some "delete" := by rw [hty]; decide
    simp only [s3Iteration]
    rw [if_neg hne1, if_neg hne2, if_pos hty, herr]

/-- C2, witness: each part of the amended theorem applied at a concrete
input. -/
theorem C2_witness :
    (sqsIteration (fun _ _ => .error (.ioError "x"))
      (some ({ type := some "create" }, "h"))).uncaught = none
    ∧ s3Iteration (fun _ _ => .error (.ioError "x")) (some { type := some "create" })
        = ⟨[.sinkCall .create { type := some "create" }, .log .error], none⟩
    ∧ s3Iteration (fun _ _ => .error (.ioError "x")) (some { type := some "delete" })
        = ⟨[.sinkCall .delete { type := some "delete" }], some (.ioError "x")⟩
    ∧ s3Iteration (fun _ _ => .error (.ioError "x")) (some { type := some "update" })
        = ⟨[.sinkCall .update { type := some "update" }], some (.ioError "x")⟩ :=
  ⟨C2_amended.1 (fun _ _ => .error (.ioError "x")) (some ({ type := some "create" }, "h")),
   C2_amended.2.1 (fun _ _ => .error (.ioError "x")) { type := some "create" }
     (.ioError "x") rfl rfl,
   C2_amended.2.2.1 (fun _ _ => .error (.ioError "x")) { type := some "delete" }
     (.ioError "x") rfl rfl,
   C2_amended.2.2.2 (fun _ _ => .error (.ioError "x")) { type := some "update" }
     (.ioError "x") rfl rfl⟩

/-- C3: in the queue-style path, for a request of recognized type, the
acknowledgment happens only after the Sink call returns successfully (the
iteration's events are exactly Sink call, success log, then `delete_message`),
and when the Sink call raises, the events contain no `delete_message` at
all. -/
theorem C3_theorem (σ : SinkBehavior) (r : Req) (handle : String) (op : SinkOp)
    (hty : r.type = some (opString op)) :
    (σ op r = .ok () →
      sqsIteration σ (some (r, handle))
        = ⟨[.sinkCall op r, .log .info, .deleteMessage handle], none⟩)
    ∧ (∀ e, σ op r = .error e →
      sqsIteration σ (some (r, handle)) = ⟨[.sinkCall op r, .log .error], none⟩) := by
  cases op with
  | create =>
    have hty' : r.type = some "create" := hty
    constructor
    · intro hok
      simp only [sqsIteration]
      rw [if_pos hty', hok]
    · intro e herr
      simp only [sqsIteration]
      rw [if_pos hty', herr]
  | delete =>
    have hty' : r.type = some "delete" := hty
    have hne1 : ¬ r.type = some "create" := by rw [hty']; decide
    constructor
    · intro hok
      simp only [sqsIteration]
      rw [if_neg hne1, if_pos hty', hok]
    · intro e herr
      simp only [sqsIteration]
      rw [if_neg hne1, if_pos hty', herr]
  | update =>
    have hty' : r.type = some "update" := hty
    have hne1 : ¬ r.type = some "create" := by rw [hty']; decide
    have hne2 : ¬ r.type = some "delete" := by rw [hty']; decide
    constructor
    · intro hok
      simp only [sqsIteration]
      rw [if_neg hne1, if_neg hne2, if_pos hty', hok]
    · intro e herr
      simp only [sqsIteration]
      rw [if_neg hne1, if_neg hne2, if_pos hty', herr]

/-- C3, witness: both directions at concrete inputs (an update request whose
Sink call succeeds, and one whose Sink call raises). -/
theorem C3_witness :
    sqsIteration (fun _ _ => .ok ()) (some ({ type := some "update" }, "h2"))
      = ⟨[.sinkCall .update { type := some "update" }, .log .info, .deleteMessage "h2"],
          none⟩
    ∧ sqsIteration (fun _ _ => .error (.ioError "y"))
        (some ({ type := some "update" }, "h2"))
      = ⟨[.sinkCall .update { type := some "update" }, .log .error], none⟩ :=
  ⟨(C3_theorem (fun _ _ => .ok ()) { type := some "update" } "h2" .update rfl).1 rfl,
   (C3_theorem (fun _ _ => .error (.ioError "y")) { type := some "update" } "h2"
     .update rfl).2 (.ioError "y") rfl⟩

/-- Draining a cache of already-buffered, parseable messages: each call pops
the front in FIFO order and issues no SQS call. -/
theorem runCalls_drain (qs : List (Req × String)) (restQ : List (List SQSMessage)) :
    SQSRetriever.runCalls qs.length
        ⟨qs.map (fun q => ⟨some q.1, q.2⟩), restQ⟩ =
      (qs.map (fun q => (some q, [])), ⟨[], restQ⟩) := by
  induction qs with
  | nil => rfl
  | cons q qs ih =>
    rw [List.length_cons]
    simp only [SQSRetriever.runCalls]
    rw [show SQSRetriever.get_request ⟨(q :: qs).map (fun q => ⟨some q.1, q.2⟩), restQ⟩
        = (some (q.1, q.2), ⟨qs.map (fun q => ⟨some q.1, q.2⟩), restQ⟩, []) from rfl]
    simp [ih]

/-- C4: starting from an empty buffer, a receive returning the batch
`(a, b) :: ps` makes the first `get_request` issue exactly one
`receive_message` and return the first message; each following call returns
the next buffered message in FIFO order with no SQS call; and any call made
with an empty buffer begins with a fresh `receive_message`. -/
theorem C4_theorem :
    (∀ (a : Req) (b : String) (ps : List (Req × String))
        (restQ : List (List SQSMessage)),
      SQSRetriever.runCalls ((a, b) :: ps).length
          ⟨[], (((a, b) :: ps).map (fun q => ⟨some q.1, q.2⟩)) :: restQ⟩ =
        ((some (a, b), [SQSOp.receiveMessage]) :: ps.map (fun q => (some q, [])),
          ⟨[], restQ⟩))
    ∧ (∀ st : SQSState, st.message_cache = [] →
        (SQSRetriever.get_request st).2.2.head? = some SQSOp.receiveMessage) := by
  constructor
  · intro a b ps restQ
    rw [List.length_cons]
    simp only [SQSRetriever.runCalls]
    rw [show SQSRetriever.get_request
          ⟨[], (((a, b) :: ps).map (fun q => ⟨some q.1, q.2⟩)) :: restQ⟩
        = (some (a, b), ⟨ps.map (fun q => ⟨some q.1, q.2⟩), restQ⟩,
            [SQSOp.receiveMessage]) from rfl]
    simp [runCalls_drain]
  · intro st hcache
    rcases st with ⟨cache, pending⟩
    simp only at hcache
    subst hcache
    simp only [SQSRetriever.get_request, List.isEmpty_nil, if_true]
    cases pending with
    | nil => rfl
    | cons batch rest =>
      by_cases hb : batch.isEmpty
      · simp [hb]
      · simp only [hb, Bool.false_eq_true, if_false]
        cases batch with
        | nil => simp at hb
        | cons m ms =>
          rcases m with ⟨body, handle⟩
          cases body <;> rfl

/-- C4, witness for the empty-buffer hypothesis of the second part, plus the
first part at a one-message batch. -/
theorem C4_witness :
    SQSRetriever.runCalls 1
        ⟨[], [[⟨some { type := some "create" }, "h9"⟩]]⟩ =
      ([(some ({ type := some "create" }, "h9"), [SQSOp.receiveMessage])], ⟨[], []⟩)
    ∧ (SQSRetriever.get_request ⟨[], []⟩).2.2.head? = some SQSOp.receiveMessage :=
  ⟨C4_theorem.1 { type := some "create" } "h9" [] [],
   C4_theorem.2 ⟨[], []⟩ rfl⟩

/-- C7: on an inbox whose single object parses, `get_request` returns the
parsed request, removes the object, and the trace is exactly list, get, then
delete of that object's key (so the delete precedes the return); on an empty
inbox it returns `None` after the list call alone, with no get and no
delete. -/
theorem C7_theorem (k : String) (r : Req) :
    S3Retriever.get_request [⟨k, some r⟩]
      = (some r, [], [.listObjects, .getObject k, .deleteObject k])
    ∧ S3Retriever.get_request [] = (none, [], [.listObjects]) :=
  ⟨rfl, rfl⟩

/-- C10: a poll-style object whose body fails to parse is caught by the
`except` clause: `get_request` returns `None`, the trace stops at the get (no
delete), and the inbox is unchanged, so the same object is listed again on
the next cycle; by contrast, the queue-style `get_request` deletes a
malformed message from the queue. -/
theorem C10_theorem (k : String) (rest : List S3Object) (hb : String)
    (cache : List SQSMessage) (restQ : List (List SQSMessage)) :
    S3Retriever.get_request (⟨k, none⟩ :: rest)
      = (none, ⟨k, none⟩ :: rest, [.listObjects, .getObject k])
    ∧ S3Retriever.get_request
        ((S3Retriever.get_request (⟨k, none⟩ :: rest)).2.1)
      = (none, ⟨k, none⟩ :: rest, [.listObjects, .getObject k])
    ∧ SQSRetriever.get_request ⟨⟨none, hb⟩ :: cache, restQ⟩
      = (none, ⟨cache, restQ⟩, [.deleteMessage hb]) :=
  ⟨rfl, rfl, rfl⟩

namespace DynamoDBStorage

theorem specValues_eq_nil_iff (r : Req) :
    specValues r = [] ↔ presentFixed r = [] ∧ attrsOf r = [] := by
  unfold specValues
  simp [List.append_eq_nil, List.map_eq_nil_iff, List.enum_eq_nil]

end DynamoDBStorage

/-- C5: for an update request whose `widgetId` is present, the table sink
builds an update expression whose placeholders cover exactly the present
fields of {owner, label, description} (`#f` / `:f`) plus every
`otherAttributes` entry (`#attr i` / `:val i` by position), with
name and value maps matching those placeholders, targeting the record with
`id = widgetId`; when no such field is present it performs zero write
calls. -/
theorem C5_theorem (r : Req) (wid : String) (hw : r.widgetId = some wid) :
    (DynamoDBStorage.presentFixed r = [] ∧ DynamoDBStorage.attrsOf r = [] →
      DynamoDBStorage.update_widget r = (.ok (), []))
    ∧ (¬(DynamoDBStorage.presentFixed r = [] ∧ DynamoDBStorage.attrsOf r = []) →
      DynamoDBStorage.update_widget r = (.ok (),
        [.updateItem wid
          ("SET " ++ DynamoDBStorage.joinClauses (DynamoDBStorage.specClauses r))
          (some (DynamoDBStorage.specNames r)) (DynamoDBStorage.specValues r)])) := by
  constructor
  · intro hnone
    rw [DynamoDBStorage.update_widget_eq r wid hw,
      if_pos ((DynamoDBStorage.specValues_eq_nil_iff r).mpr hnone)]
  · intro hsome
    rw [DynamoDBStorage.update_widget_eq r wid hw,
      if_neg (fun h => hsome ((DynamoDBStorage.specValues_eq_nil_iff r).mp h))]

/-- C5, witness: one populated update request (one fixed field and one
`otherAttributes` entry), and one no-op update request. -/
theorem C5_witness :
    DynamoDBStorage.update_widget
      { widgetId := some "w1", owner := some "al",
        otherAttributes := some [⟨"size", "8"⟩] }
      = (.ok (), [.updateItem "w1" "SET #owner = :owner, #attr0 = :val0"
          (some [("#owner", "owner"), ("#attr0", "size")])
          [(":owner", "al"), (":val0", "8")]])
    ∧ DynamoDBStorage.update_widget { widgetId := some "w2" } = (.ok (), []) :=
  ⟨by
    have h := (C5_theorem
      { widgetId := some "w1", owner := some "al",
        otherAttributes := some [⟨"size", "8"⟩] } "w1" rfl).2 (by decide)
    rw [h]
    rfl,
   (C5_theorem { widgetId := some "w2" } "w2" rfl).1 (by decide)⟩

/-- C6, counterexample.  An `otherAttributes` entry named `type` lands in the
stored table record, so the record DOES contain a `type` field,
contradicting "the stored record never contains `requestId` or `type`". -/
theorem C6_counterexample :
    DynamoDBStorage.create_widget
      { widgetId := some "w1", owner := some "alice",
        otherAttributes := some [⟨"type", "sneaky"⟩] }
      = (.ok (), [.putItem [("id", "w1"), ("owner", "alice"), ("type", "sneaky")]])
    ∧ dictContains [("id", "w1"), ("owner", "alice"), ("type", "sneaky")] "type"
      = true :=
  ⟨rfl, rfl⟩

/-- The table record the spec describes for a create request:
`{id, owner, label?, description?}` with absent optional fields omitted,
then one top-level field per `otherAttributes` entry, last write winning. -/
def specTableRecord (wid ow : String) (lb ds : Option String) (attrs : List Attr) :
    List (String × String) :=
  attrs.foldl (fun d a => dictSet d a.name a.value)
    ([("id", wid), ("owner", ow)]
      ++ (match lb with | some l => [("label", l)] | none => [])
      ++ (match ds with | some d => [("description", d)] | none => []))

/-- Folding `otherAttributes` entries into a record introduces no key other
than the entries' names. -/
theorem dictContains_foldl_attrs {k : String} (attrs : List Attr) :
    ∀ d : List (String × String), dictContains d k = false →
    (∀ a ∈ attrs, (a.name == k) = false) →
    dictContains (attrs.foldl (fun d a => dictSet d a.name a.value) d) k = false := by
  induction attrs with
  | nil => intro d hd _; exact hd
  | cons a as ih =>
    intro d hd ha
    rw [List.foldl_cons]
    exact ih _ (dictContains_dictSet hd (ha a (by simp)) a.value)
      (fun x hx => ha x (by simp [hx]))

/-- C6, amended: the stored record is exactly the spec-described one — base
fields plus one top-level field per `otherAttributes` entry, last entry
winning — and it contains `requestId` or `type` only when some
`otherAttributes` entry carries that exact name. -/
theorem C6_amended (rid ty : Option String) (wid ow : String)
    (lb ds : Option String) (oa : Option (List Attr)) :
    DynamoDBStorage.create_widget ⟨rid, ty, some wid, some ow, lb, ds, oa⟩
      = (.ok (), [.putItem (specTableRecord wid ow lb ds (oa.getD []))])
    ∧ ((∀ a ∈ oa.getD [], a.name ≠ "requestId" ∧ a.name ≠ "type") →
        dictContains (specTableRecord wid ow lb ds (oa.getD [])) "requestId" = false
        ∧ dictContains (specTableRecord wid ow lb ds (oa.getD [])) "type" = false) := by
  constructor
  · cases lb <;> cases ds <;> cases oa <;>
      simp [DynamoDBStorage.create_widget, specTableRecord, dictSet, dictContains]
  · intro h
    unfold specTableRecord
    constructor
    · apply dictContains_foldl_attrs
      · cases lb <;> cases ds <;> simp [dictContains]
      · intro a ha
        exact beq_eq_false_iff_ne.mpr (h a ha).1
    · apply dictContains_foldl_attrs
      · cases lb <;> cases ds <;> simp [dictContains]
      · intro a ha
        exact beq_eq_false_iff_ne.mpr (h a ha).2

/-- C6, witness for the amended theorem: a full request with a label, a
colliding and a fresh attribute; its attribute names avoid `requestId` and
`type`, so the record contains neither. -/
theorem C6_witness :
    DynamoDBStorage.create_widget
      { requestId := some "r1", type := some "create", widgetId := some "w1",
        owner := some "bob", label := some "L",
        otherAttributes := some [⟨"owner", "eve"⟩, ⟨"size", "8"⟩] }
      = (.ok (),
        [.putItem (specTableRecord "w1" "bob" (some "L") none
          [⟨"owner", "eve"⟩, ⟨"size", "8"⟩])])
    ∧ (dictContains (specTableRecord "w1" "bob" (some "L") none
          [⟨"owner", "eve"⟩, ⟨"size", "8"⟩]) "requestId" = false
        ∧ dictContains (specTableRecord "w1" "bob" (some "L") none
          [⟨"owner", "eve"⟩, ⟨"size", "8"⟩]) "type" = false) :=
  ⟨(C6_amended (some "r1") (some "create") "w1" "bob" (some "L") none
      (some [⟨"owner", "eve"⟩, ⟨"size", "8"⟩])).1,
   (C6_amended (some "r1") (some "create") "w1" "bob" (some "L") none
      (some [⟨"owner", "eve"⟩, ⟨"size", "8"⟩])).2 (by decide)⟩

/-- Spec-side key normalization, from the spec's words: `normalized-owner` is
`owner` lower-cased with every space replaced by a hyphen. -/
def specNormalizedOwner (owner : String) : String :=
  ⟨(owner.data.map Char.toLower).map (fun c => if c == ' ' then '-' else c)⟩

/-- C8: `update_widget` on the object-store sink is the same operation as
`create_widget` on the same input (same outcome, same write calls), and that
operation's single write call targets
`widgets/{normalized-owner}/{widgetId}` with the full request as body. -/
theorem C8_theorem (bucket : String) (r : Req) (rid ty : Option String)
    (wid ow : String) (lb ds : Option String) (oa : Option (List Attr)) :
    S3Storage.update_widget bucket r = S3Storage.create_widget bucket r
    ∧ S3Storage.create_widget bucket ⟨rid, ty, some wid, some ow, lb, ds, oa⟩
        = (.ok (), [.putObject bucket
            ("widgets/" ++ specNormalizedOwner ow ++ "/" ++ wid)
            ⟨rid, ty, some wid, some ow, lb, ds, oa⟩]) := by
  constructor
  · unfold S3Storage.update_widget
    cases hw : r.widgetId with
    | none =>
      unfold S3Storage.create_widget
      rw [hw]
    | some wid' => rfl
  · rfl

/-- C9: an object-store delete request with `widgetId` but no `owner` raises
the `ValueError` (a contract violation, a different constructor from any I/O
error) and issues no store call at all. -/
theorem C9_theorem (bucket : String) (r : Req) (wid : String)
    (hw : r.widgetId = some wid) (ho : r.owner = none) :
    S3Storage.delete_widget bucket r
      = (.error (.valueError "Delete request for S3 must include 'owner'"), [])
    ∧ ∀ m, PyErr.valueError "Delete request for S3 must include 'owner'"
        ≠ PyErr.ioError m := by
  constructor
  · unfold S3Storage.delete_widget
    rw [hw, ho]
  · intro m hcontra
    cases hcontra

/-- C9, witness at a concrete ownerless delete request. -/
theorem C9_witness :
    S3Storage.delete_widget "b3" { type := some "delete", widgetId := some "w1" }
      = (.error (.valueError "Delete request for S3 must include 'owner'"), [])
    ∧ ∀ m, PyErr.valueError "Delete request for S3 must include 'owner'"
        ≠ PyErr.ioError m :=
  C9_theorem "b3" { type := some "delete", widgetId := some "w1" } "w1" rfl rfl
